import Mathlib

/-!
Shallow embedding of the recipe recommender core
(src/src/recommender/recipe_recommender.py) together with the pieces of the
repository layer it relies on (src/src/database/queries.py,
src/src/models/recipe.py, src/src/models/ingredient.py).

Python floats are modelled by rationals; Python sets are modelled by
duplicate-free lists in first-insertion order (set iteration order is
arbitrary but fixed within a process, which is all the code relies on);
Python exceptions are modelled by an Except result.  All concrete strings
appearing in the theorems are ASCII.
-/

deriving instance DecidableEq for Except

namespace Recipes

/-! ### Character helpers -/

/-- Word characters in the sense of the regex word-boundary test used by the
source (ASCII letters, digits, underscore). -/
def isWordChar (c : Char) : Bool := c.isAlpha || c.isDigit || c == '_'

/-- Alphanumeric characters, as tested by the Python method isalnum on the
ASCII strings arising in this development. -/
def isAlnumChar (c : Char) : Bool := c.isAlpha || c.isDigit

/-- The 26 ASCII upper-case letters with their lower-case forms. -/
def lowerPairs : List (Char × Char) :=
  [('A', 'a'), ('B', 'b'), ('C', 'c'), ('D', 'd'), ('E', 'e'), ('F', 'f'),
   ('G', 'g'), ('H', 'h'), ('I', 'i'), ('J', 'j'), ('K', 'k'), ('L', 'l'),
   ('M', 'm'), ('N', 'n'), ('O', 'o'), ('P', 'p'), ('Q', 'q'), ('R', 'r'),
   ('S', 's'), ('T', 't'), ('U', 'u'), ('V', 'v'), ('W', 'w'), ('X', 'x'),
   ('Y', 'y'), ('Z', 'z')]

/-- Association-list lookup for characters. -/
def tblLookupC : List (Char × Char) → Char → Option Char
  | [], _ => none
  | p :: ps, c => if p.1 = c then some p.2 else tblLookupC ps c

/-- Modelled from the Python method str.lower restricted to ASCII (every
string in this development is ASCII). -/
def toLowerChar (c : Char) : Char := (tblLookupC lowerPairs c).getD c

/-- text.lower() on the character list of a string. -/
def lowerChars (cs : List Char) : List Char := cs.map toLowerChar

def lowerString (s : String) : String := String.mk (lowerChars s.data)

/-! ### The quantity-and-unit regex

The source removes, via re.sub, every non-overlapping match of
  d+ /? d* s* (cup|tablespoon|teaspoon|pound|ounce|oz|lb|g|kg|ml|c|tbsp|tsp|cups|tablespoons|teaspoons|pounds|ounces) s? b
where d+ is one or more digits, /? an optional slash, s* whitespace, the
trailing s? an optional plural letter and b a word boundary.  The scanner
below reproduces the Python engine: alternatives are tried left to right,
the optional plural is tried greedily, and scanning resumes after each
match. -/

/-- Match a literal character sequence, returning the remainder. -/
def matchLit : List Char → List Char → Option (List Char)
  | [], rest => some rest
  | _ :: _, [] => none
  | l :: ls, c :: cs => if l = c then matchLit ls cs else none

/-- The word-boundary test after a match ending in a word character. -/
def boundary : List Char → Bool
  | [] => true
  | c :: _ => !isWordChar c

/-- The unit alternatives, in the order they appear in the source regex. -/
def unitAlts : List (List Char) :=
  ["cup", "tablespoon", "teaspoon", "pound", "ounce", "oz", "lb", "g", "kg",
   "ml", "c", "tbsp", "tsp", "cups", "tablespoons", "teaspoons", "pounds",
   "ounces"].map String.data

/-- Try each unit alternative, with the greedy optional plural letter and the
trailing word-boundary test. -/
def matchUnitAlt : List (List Char) → List Char → Option (List Char)
  | [], _ => none
  | alt :: alts, cs =>
    match matchLit alt cs with
    | some rest =>
      if rest.take 1 = ['s'] && boundary (rest.drop 1) then some (rest.drop 1)
      else if boundary rest then some rest
      else matchUnitAlt alts cs
    | none => matchUnitAlt alts cs

/-- One match of the quantity-and-unit regex starting at the head of the
input, returning the remainder after the match. -/
def matchUnit (cs : List Char) : Option (List Char) :=
  if (cs.takeWhile Char.isDigit).isEmpty then none
  else
    let r1 := cs.dropWhile Char.isDigit
    let r2 := if r1.take 1 = ['/'] then (r1.drop 1).dropWhile Char.isDigit
              else r1
    matchUnitAlt unitAlts (r2.dropWhile Char.isWhitespace)

/-- re.sub scanning: at each position try a match; on success drop the match
and resume after it, otherwise keep the character.  The fuel argument is the
initial length of the input; every step consumes at least one character, so
the fuel never runs out when the scan starts with fuel equal to the length. -/
def stripUnitsGo : Nat → List Char → List Char
  | 0, cs => cs
  | _ + 1, [] => []
  | n + 1, c :: cs =>
    match matchUnit (c :: cs) with
    | some rest => stripUnitsGo n rest
    | none => c :: stripUnitsGo n cs

def stripUnits (cs : List Char) : List Char := stripUnitsGo cs.length cs

/-! ### The parenthetical regex -/

/-- One match of the parenthetical aside regex (an opening parenthesis, any
run of characters other than a closing parenthesis, then a closing
parenthesis) starting at the head of the input. -/
def matchParen : List Char → Option (List Char)
  | [] => none
  | c :: cs =>
    if c = '(' then
      let r := cs.dropWhile (fun x => x != ')')
      if r.take 1 = [')'] then some (r.drop 1) else none
    else none

def stripParensGo : Nat → List Char → List Char
  | 0, cs => cs
  | _ + 1, [] => []
  | n + 1, c :: cs =>
    match matchParen (c :: cs) with
    | some rest => stripParensGo n rest
    | none => c :: stripParensGo n cs

def stripParens (cs : List Char) : List Char := stripParensGo cs.length cs

/-! ### The preparation-phrase regex

b (chopped|diced|minced|sliced|grated|for serving|to serve|optional|to taste) b
Every alternative starts and ends with a word character, so a match can only
start where the previous character is not a word character (or at the start
of the string); the scanner carries that bit of state. -/

def prepAlts : List (List Char) :=
  ["chopped", "diced", "minced", "sliced", "grated", "for serving",
   "to serve", "optional", "to taste"].map String.data

def matchPrepAlt : List (List Char) → List Char → Option (List Char)
  | [], _ => none
  | alt :: alts, cs =>
    match matchLit alt cs with
    | some rest => if boundary rest then some rest else matchPrepAlt alts cs
    | none => matchPrepAlt alts cs

def stripPrepGo : Nat → Bool → List Char → List Char
  | 0, _, cs => cs
  | _ + 1, _, [] => []
  | n + 1, prevW, c :: cs =>
    if prevW then c :: stripPrepGo n (isWordChar c) cs
    else
      match matchPrepAlt prepAlts (c :: cs) with
      | some rest => stripPrepGo n true rest
      | none => c :: stripPrepGo n (isWordChar c) cs

def stripPrep (cs : List Char) : List Char := stripPrepGo cs.length false cs

/-! ### Tokenizing, stop words, lemmatizer -/

/-- Modelled from nltk.word_tokenize as used by the source: on the strings
this pipeline feeds it (lower-case alphanumeric words separated by
whitespace) it coincides with whitespace splitting. -/
def tokenizeGo (cur : List Char) : List Char → List (List Char)
  | [] => if cur.isEmpty then [] else [cur.reverse]
  | c :: cs =>
    if c.isWhitespace then
      if cur.isEmpty then tokenizeGo [] cs else cur.reverse :: tokenizeGo [] cs
    else tokenizeGo (c :: cur) cs

def tokenize (cs : List Char) : List (List Char) := tokenizeGo [] cs

/-- Modelled from the NLTK English stop-word list loaded by the source
(stopwords.words applied to english).  The contraction entries containing an
apostrophe are omitted: no string in this development contains an apostrophe,
and an apostrophe-bearing token would be dropped by the isalnum filter in any
case. -/
def stopWords : List String :=
  ["i", "me", "my", "myself", "we", "our", "ours", "ourselves", "you",
   "your", "yours", "yourself", "yourselves", "he", "him", "his", "himself",
   "she", "her", "hers", "herself", "it", "its", "itself", "they", "them",
   "their", "theirs", "themselves", "what", "which", "who", "whom", "this",
   "that", "these", "those", "am", "is", "are", "was", "were", "be", "been",
   "being", "have", "has", "had", "having", "do", "does", "did", "doing",
   "a", "an", "the", "and", "but", "if", "or", "because", "as", "until",
   "while", "of", "at", "by", "for", "with", "about", "against", "between",
   "into", "through", "during", "before", "after", "above", "below", "to",
   "from", "up", "down", "in", "out", "on", "off", "over", "under", "again",
   "further", "then", "once", "here", "there", "when", "where", "why", "how",
   "all", "any", "both", "each", "few", "more", "most", "other", "some",
   "such", "no", "nor", "not", "only", "own", "same", "so", "than", "too",
   "very", "s", "t", "can", "will", "just", "don", "should", "now", "d",
   "ll", "m", "o", "re", "ve", "y", "ain", "aren", "couldn", "didn",
   "doesn", "hadn", "hasn", "haven", "isn", "ma", "mightn", "mustn",
   "needn", "shan", "shouldn", "wasn", "weren", "won", "wouldn"]

/-- Association-list lookup for strings. -/
def tblLookupS : List (String × String) → String → Option String
  | [], _ => none
  | p :: ps, s => if p.1 = s then some p.2 else tblLookupS ps s

/-- Modelled from the NLTK WordNetLemmatizer used by the source: a
dictionary-based reduction of plural nouns to their singular base form, the
identity on tokens already in base form (and on digit tokens).  The table
covers every token appearing in the concrete inputs of this development; on
those tokens it agrees with WordNet.  Note that a base form can itself be a
stop word even when the inflected token is not: WordNet reduces havens to
haven, wills to will and dons to don, and those base forms are on the stop
list; the table reproduces this, since the source filters stop words before
lemmatizing and can therefore emit a stop word as an output token. -/
def lemmaTable : List (String × String) :=
  [("beans", "bean"), ("chickens", "chicken"), ("onions", "onion"),
   ("tomatoes", "tomato"), ("cloves", "clove"), ("cups", "cup"),
   ("eggs", "egg"), ("breasts", "breast"), ("havens", "haven"),
   ("wills", "will"), ("dons", "don")]

def lemmatize (t : String) : String := (tblLookupS lemmaTable t).getD t

/-- Join token lists with single spaces (the Python join with a space). -/
def joinSpace : List (List Char) → List Char
  | [] => []
  | [w] => w
  | w :: ws => w ++ ' ' :: joinSpace ws

/-- IngredientProcessor.preprocess_ingredient, as a function on the
character list: lower-case, strip quantity-and-unit phrases, strip
parenthetical asides, strip preparation phrases, tokenize, drop tokens that
are not alphanumeric or are stop words, lemmatize, join with spaces. -/
def preprocessCore (cs : List Char) : List (List Char) :=
  let t1 := lowerChars cs
  let t2 := stripUnits t1
  let t3 := stripParens t2
  let t4 := stripPrep t3
  let toks := tokenize t4
  let kept := toks.filter
    (fun w => w.all isAlnumChar && decide (String.mk w ∉ stopWords))
  kept.map (fun w => (lemmatize (String.mk w)).data)

/-- IngredientProcessor.preprocess_ingredient. -/
def preprocessIngredient (s : String) : String :=
  String.mk (joinSpace (preprocessCore s.data))

/-! ### List helpers shared by the embedding -/

/-- Concatenate the images of a list under a list-valued function. -/
def flatAll {α β : Type} (f : α → List β) : List α → List β
  | [] => []
  | x :: xs => f x ++ flatAll f xs

/-- Duplicate-free copy of a list keeping first occurrences: the model of a
Python set built by repeated insertion. -/
def dedupGo {α : Type} [DecidableEq α] (seen : List α) : List α → List α
  | [] => []
  | x :: xs => if x ∈ seen then dedupGo seen xs else x :: dedupGo (x :: seen) xs

def dedup {α : Type} [DecidableEq α] (l : List α) : List α := dedupGo [] l

/-- Stable insertion used by the sort model: x is placed before the first
element y with ge x y, so elements that compare equal keep their original
relative order, exactly as the Python stable sort does. -/
def insertDescBy {α : Type} (ge : α → α → Bool) (x : α) : List α → List α
  | [] => [x]
  | y :: ys => if ge x y then x :: y :: ys else y :: insertDescBy ge x ys

/-- Stable sort placing greater elements first (Python list.sort with
reverse=True, or sorted with reverse=True, for ge the reflexive comparison). -/
def sortDescBy {α : Type} (ge : α → α → Bool) : List α → List α
  | [] => []
  | x :: xs => insertDescBy ge x (sortDescBy ge xs)

/-! ### The vector-space index and similarity matcher

The source builds a TfidfVectorizer(analyzer=word, ngram_range=(1,2),
min_df=1) over the processed corpus and compares l2-normalized rows by dot
product, which is cosine similarity.  The idf weight 1 + ln((1+n)/(1+df)) is
transcendental, so the model uses the uniform weight 1 (plain term counts).
Every query-document pair evaluated in the theorems below is either
term-identical (cosine similarity exactly 1 under any positive weighting) or
term-disjoint (similarity exactly 0 under any weighting), so every concrete
value and threshold comparison below is independent of this choice and
agrees exactly with the sklearn computation.  A similarity value is kept as
the exact pair (num, den) denoting num / sqrt den, with comparisons done by
exact rational arithmetic on squares. -/

/-- Cosine similarity value num / sqrt den (0 when den is 0); num is the dot
product of the two nonnegative count vectors and den the product of their
squared norms. -/
structure Sim where
  num : ℚ
  den : ℚ
deriving DecidableEq, Repr

/-- Exact test for value x strictly above a nonnegative rational threshold. -/
def Sim.gtQ (x : Sim) (q : ℚ) : Bool :=
  decide (0 < x.num) && decide (q ^ 2 * x.den < x.num ^ 2)

/-- Exact test for value x strictly above value y (both nonnegative). -/
def Sim.gtS (x y : Sim) : Bool :=
  decide (0 < x.num) &&
    (decide (y.num = 0) || decide (y.num ^ 2 * x.den < x.num ^ 2 * y.den))

/-- Tokens of an already-processed (space-joined) ingredient string under
the sklearn word analyzer: its default token pattern keeps only runs of at
least two word characters, so on the alphanumeric space-separated strings
the pipeline produces it is whitespace splitting with one-character tokens
dropped. -/
def tokensOfProcessed (s : String) : List String :=
  ((tokenize s.data).filter (fun w => 2 ≤ w.length)).map String.mk

/-- Adjacent token pairs joined by a space. -/
def bigrams : List String → List String
  | a :: b :: rest => (a ++ " " ++ b) :: bigrams (b :: rest)
  | _ => []

/-- The terms of a document under the word analyzer with ngram_range (1,2):
its unigrams and its adjacent bigrams. -/
def ngramsOf (toks : List String) : List String := toks ++ bigrams toks

/-- Raw term count of term t in a processed document. -/
def docCount (d : String) (t : String) : ℚ :=
  ((ngramsOf (tokensOfProcessed d)).count t : ℚ)

/-- The vocabulary fixed at fit time: every term observed across the corpus. -/
def vocabOf (docs : List String) : List String :=
  dedup (flatAll (fun d => ngramsOf (tokensOfProcessed d)) docs)

def sumOver (vocab : List String) (f : String → ℚ) : ℚ :=
  (vocab.map f).foldr (· + ·) 0

/-- Cosine similarity of two documents through the shared vocabulary:
out-of-vocabulary terms contribute nothing, exactly as transform drops them. -/
def mkSim (vocab : List String) (qd dd : String → ℚ) : Sim :=
  ⟨sumOver vocab (fun t => qd t * dd t),
   sumOver vocab (fun t => qd t * qd t) * sumOver vocab (fun t => dd t * dd t)⟩

/-- The state of a fitted IngredientProcessor: the processed corpus, in fit
order.  The vocabulary and the document vectors are derived from it. -/
structure FittedProc where
  processed_ingredients : List String
deriving DecidableEq, Repr

/-- IngredientProcessor.fit_transform_ingredients.  Modelled from the source
together with the sklearn vectorizer it calls: fitting an empty vocabulary
(in particular, an empty corpus) raises ValueError in sklearn, modelled as
an error result; the source adds no handling around it. -/
def fitTransformIngredients (ingredients : List String) :
    Except String FittedProc :=
  let processed := ingredients.map preprocessIngredient
  if (vocabOf processed).isEmpty then
    Except.error "empty vocabulary; perhaps the documents only contain stop words"
  else Except.ok ⟨processed⟩

/-- IngredientProcessor.find_similar_ingredients: preprocess the query,
project it into the fitted space, compute cosine similarity against every
corpus entry, keep entries strictly above the threshold (in corpus order),
then stable-sort by similarity descending.  The source callers always use
the default threshold 0.3. -/
def findSimilarIngredients (p : FittedProc) (query : String) (threshold : ℚ) :
    List (String × Sim) :=
  let vocab := vocabOf p.processed_ingredients
  let qd := docCount (preprocessIngredient query)
  let similar := (p.processed_ingredients.map
      (fun d => (d, mkSim vocab qd (docCount d)))).filter
    (fun e => e.2.gtQ threshold)
  sortDescBy (fun a b => !(Sim.gtS b.2 a.2)) similar

/-! ### Data model (src/src/models) -/

/-- src/src/models/ingredient.py -/
structure Ingredient where
  name : String
  quantity : String
  unit : String
  additional : String
  «section» : String
deriving DecidableEq, Repr

/-- src/src/models/recipe.py; the ingredients mapping is section name to the
ordered ingredient list of that section.  Times are optional minutes: absence
is the unknown marker.  Recipes coming from the repository always carry an
id (the database primary key). -/
structure Recipe where
  id : Int
  title : String
  url : Option String
  prep_time : Option Int
  cook_time : Option Int
  total_time : Option Int
  servings : String
  ingredients : List (String × List Ingredient)
deriving DecidableEq, Repr

/-- UserPreferences from the recommender module. -/
structure UserPreferences where
  available_ingredients : Option (List String)
  max_time : Option Int
  excluded_ingredients : Option (List String)
  preferred_ingredients : Option (List String)
deriving DecidableEq, Repr

/-- Python truthiness of an optional integer: None and 0 are falsy. -/
def optIntTruthy : Option Int → Bool
  | none => false
  | some v => v != 0

/-- Python truthiness of an optional list: None and the empty list are falsy. -/
def optListTruthy {α : Type} : Option (List α) → Bool
  | none => false
  | some l => !l.isEmpty

/-! ### The repository collaborator (src/src/database/queries.py) -/

/-- RecipeRepository.get_recipes: the database table is modelled as a list of
recipes; the query orders by id (stable), skips the offset and takes the
limit. -/
def getRecipes (repo : List Recipe) (limit : Nat) (offsetN : Nat) :
    List Recipe :=
  (((sortDescBy (fun a b => decide (a.id ≤ b.id)) repo).drop offsetN).take limit)

/-! ### EnhancedRecipeRecommender -/

/-- EnhancedRecipeRecommender.get_recipe_ingredients: the set of lower-cased
ingredient names of a recipe, modelled as a duplicate-free list. -/
def getRecipeIngredients (r : Recipe) : List String :=
  dedup (flatAll (fun sec => sec.2.map (fun i => lowerString i.name))
    r.ingredients)

/-- EnhancedRecipeRecommender.initialize_ingredient_vectors collects the set
of raw ingredient names across all fetched recipes. -/
def collectAllIngredients (recipes : List Recipe) : List String :=
  dedup (flatAll
    (fun r => flatAll (fun sec => sec.2.map Ingredient.name) r.ingredients)
    recipes)

/-- The whole recommender state: the repository and the fitted processor. -/
structure Recommender where
  recipe_repository : List Recipe
  ingredient_processor : FittedProc
deriving DecidableEq, Repr

/-- EnhancedRecipeRecommender.__init__ / initialize_ingredient_vectors:
fetch up to 1000 recipes, collect the distinct raw ingredient names, fit the
vectorizer over them.  A fit error (empty vocabulary) propagates. -/
def mkRecommender (repo : List Recipe) : Except String Recommender :=
  match fitTransformIngredients (collectAllIngredients (getRecipes repo 1000 0)) with
  | Except.error e => Except.error e
  | Except.ok p => Except.ok ⟨repo, p⟩

/-- The test of the source line
  if any(sim[1] > 0.5 for sim in similar_ingredients) -/
def anyHighSim (similar : List (String × Sim)) : Bool :=
  similar.any (fun sim => sim.2.gtQ (1 / 2))

/-- The inner loop of calculate_ingredient_similarity over the recipe
ingredients: the recipe_similar list is computed and then never used, and
the tested condition does not depend on recipe_ing, faithful to the source;
the loop returns whether the break incrementing matches was reached. -/
def innerMatchLoop (p : FittedProc) (similar : List (String × Sim)) :
    List String → Bool
  | [] => false
  | recipe_ing :: rest =>
    let _recipe_similar := findSimilarIngredients p recipe_ing (3 / 10)
    if anyHighSim similar then true else innerMatchLoop p similar rest

/-- EnhancedRecipeRecommender.calculate_ingredient_similarity. -/
def calculateIngredientSimilarity (p : FittedProc)
    (user_ingredients recipe_ingredients : List String) : ℚ :=
  let total_recipe_ingredients := recipe_ingredients.length
  let matched := (user_ingredients.filter (fun user_ing =>
    innerMatchLoop p (findSimilarIngredients p user_ing (3 / 10))
      recipe_ingredients)).length
  if 0 < total_recipe_ingredients then
    (matched : ℚ) / (total_recipe_ingredients : ℚ)
  else 0

/-- The score record built by calculate_recipe_score. -/
structure Scores where
  ingredient_match : ℚ
  time_score : ℚ
  preference_score : ℚ
  exclusion_penalty : ℚ
  total_score : ℚ
deriving DecidableEq, Repr

/-- Intersection of two duplicate-free lists (Python set intersection),
keeping the order of the first. -/
def listInter (a b : List String) : List String :=
  a.filter (fun x => decide (x ∈ b))

/-- EnhancedRecipeRecommender.calculate_recipe_score.  The time branch tests
Python truthiness of both optional values, so a stored 0 behaves like an
absent value; the weights are 0.4, 0.3, 0.3 and -1.0. -/
def calculateRecipeScore (recipe : Recipe) (preferences : UserPreferences)
    (ingredient_score : ℚ) : Scores :=
  let time_score : ℚ :=
    if optIntTruthy preferences.max_time && optIntTruthy recipe.total_time then
      let mt := preferences.max_time.getD 0
      let tt := recipe.total_time.getD 0
      if tt ≤ mt then 1
      else max 0 (1 - ((tt : ℚ) - (mt : ℚ)) / (mt : ℚ))
    else 0
  let preference_score : ℚ :=
    if optListTruthy preferences.preferred_ingredients then
      let recipe_ingredients := getRecipeIngredients recipe
      let preferred :=
        dedup ((preferences.preferred_ingredients.getD []).map lowerString)
      let matched := listInter recipe_ingredients preferred
      if preferred.isEmpty then 0
      else (matched.length : ℚ) / (preferred.length : ℚ)
    else 0
  let exclusion_penalty : ℚ :=
    if optListTruthy preferences.excluded_ingredients then
      let recipe_ingredients := getRecipeIngredients recipe
      let excluded :=
        dedup ((preferences.excluded_ingredients.getD []).map lowerString)
      ((listInter recipe_ingredients excluded).length : ℚ)
    else 0
  let total_score : ℚ :=
    ingredient_score * (0.4 : ℚ) + time_score * (0.3 : ℚ) +
      preference_score * (0.3 : ℚ) + exclusion_penalty * (-1.0 : ℚ)
  ⟨ingredient_score, time_score, preference_score, exclusion_penalty,
    total_score⟩

/-- EnhancedRecipeRecommender.get_matching_ingredients: for each user
ingredient in order, collect the recipe ingredients whose find_similar list
is nonempty with top similarity above 0.3 (a lookup of the recipe ingredient
against the corpus, faithful to the source), and keep the user ingredient in
the mapping only when that list is nonempty. -/
def getMatchingIngredients (p : FittedProc)
    (user_ingredients recipe_ingredients : List String) :
    List (String × List String) :=
  user_ingredients.foldr (fun user_ing acc =>
    let similar := recipe_ingredients.filter (fun recipe_ing =>
      match findSimilarIngredients p recipe_ing (3 / 10) with
      | [] => false
      | top :: _ => top.2.gtQ (3 / 10))
    if similar.isEmpty then acc else (user_ing, similar) :: acc) []

/-- One element of the scored_recipes list of get_recommendations. -/
structure ScoredRecommendation where
  recipe : Recipe
  scores : Scores
  matching_ingredients : List (String × List String)
deriving DecidableEq, Repr

/-- The per-recipe body of the loop in get_recommendations. -/
def scoreOne (rec : Recommender) (preferences : UserPreferences)
    (recipe : Recipe) : ScoredRecommendation :=
  let recipe_ingredients := getRecipeIngredients recipe
  let ingredient_score : ℚ :=
    if optListTruthy preferences.available_ingredients then
      calculateIngredientSimilarity rec.ingredient_processor
        (preferences.available_ingredients.getD []) recipe_ingredients
    else 0
  ⟨recipe, calculateRecipeScore recipe preferences ingredient_score,
    getMatchingIngredients rec.ingredient_processor
      (preferences.available_ingredients.getD []) recipe_ingredients⟩

/-- get_recommendations before the final truncation: fetch up to 1000
recipes, score each, keep those with total_score strictly positive, then
stable-sort descending by total_score. -/
def scoredSorted (rec : Recommender) (preferences : UserPreferences) :
    List ScoredRecommendation :=
  sortDescBy (fun a b => decide (b.scores.total_score ≤ a.scores.total_score))
    (((getRecipes rec.recipe_repository 1000 0).map
        (scoreOne rec preferences)).filter
      (fun s => decide (0 < s.scores.total_score)))

/-- Python list slicing lst[:stop]: a nonnegative stop takes that many
elements from the front; a negative stop drops that many from the end. -/
def pySlice {α : Type} (l : List α) (stop : Int) : List α :=
  if 0 ≤ stop then l.take stop.toNat else l.take (l.length - (-stop).toNat)

/-- EnhancedRecipeRecommender.get_recommendations. -/
def getRecommendations (rec : Recommender) (preferences : UserPreferences)
    (num_recommendations : Int) : List ScoredRecommendation :=
  pySlice (scoredSorted rec preferences) num_recommendations

/-- get_recommendations at its default argument num_recommendations=5. -/
def getRecommendationsDefault (rec : Recommender)
    (preferences : UserPreferences) : List ScoredRecommendation :=
  getRecommendations rec preferences 5

/-! ### Definitions following the wording of the specification

These are not translations of the source: they restate what the
specification says the matching step and the explanation step compute, for
comparison against the translated code above. -/

/-- Follows the spec (section 4.5 step 2): a recipe ingredient counts as
matched when some user-available ingredient has fuzzy similarity above 0.5
to it, or to any ingredient similar to it, transitively via the shared
index; the score is matched count over recipe ingredient count, 0 for a
recipe with no ingredients. -/
def specIngredientMatch (p : FittedProc)
    (user_ingredients recipe_ingredients : List String) : ℚ :=
  let matched := recipe_ingredients.filter (fun r =>
    user_ingredients.any (fun u =>
      (findSimilarIngredients p u (3 / 10)).any (fun e =>
        e.2.gtQ (1 / 2) && (e.1 == preprocessIngredient r ||
          (findSimilarIngredients p r (3 / 10)).any (fun e2 => e2.1 == e.1)))))
  if 0 < recipe_ingredients.length then
    (matched.length : ℚ) / (recipe_ingredients.length : ℚ)
  else 0

/-- Direct fuzzy similarity of two raw strings through the shared fitted
vocabulary (project both, cosine). -/
def simPair (p : FittedProc) (a b : String) : Sim :=
  mkSim (vocabOf p.processed_ingredients)
    (docCount (preprocessIngredient a)) (docCount (preprocessIngredient b))

/-- Follows the spec (section 4.5 step 7): map every user-available
ingredient to the recipe ingredients whose fuzzy similarity to it exceeds
0.3, sorted by that similarity descending; omit user ingredients with no
match above the threshold. -/
def specMatchingIngredients (p : FittedProc)
    (user_ingredients recipe_ingredients : List String) :
    List (String × List String) :=
  user_ingredients.foldr (fun u acc =>
    let kept := sortDescBy (fun a b => !(Sim.gtS b.2 a.2))
      ((recipe_ingredients.map (fun r => (r, simPair p u r))).filter
        (fun e => e.2.gtQ (3 / 10)))
    if kept.isEmpty then acc else (u, kept.map Prod.fst) :: acc) []

/-- Follows the spec (section 4.4): the fraction of the distinct lower-cased
preferred ingredient names found, by exact case-insensitive membership,
among the recipe ingredient names. -/
def specPreferenceScore (recipe : Recipe) (preferred_raw : List String) : ℚ :=
  let preferred := dedup (preferred_raw.map lowerString)
  let found := preferred.filter
    (fun x => decide (x ∈ getRecipeIngredients recipe))
  if preferred.isEmpty then 0
  else (found.length : ℚ) / (preferred.length : ℚ)

/-! ### Concrete fixtures used by the claim theorems -/

/-- A bare ingredient carrying only a name, the single field the recommender
reads. -/
def ingOf (n : String) : Ingredient := ⟨n, "", "", "", "main"⟩

/-- A recipe with the given id, total time and ingredient names. -/
def recipeOf (i : Int) (tt : Option Int) (names : List String) : Recipe :=
  ⟨i, "r", none, none, none, tt, "4", [("main", names.map ingOf)]⟩

/-- The processor fitted over the corpus {chicken, beans}. -/
def procCB : FittedProc := ⟨["chicken", "bean"]⟩

/-- The processor fitted over the corpus {chicken}. -/
def procC : FittedProc := ⟨["chicken"]⟩

/-- The two-recipe repository used for the truncation and ordering claims. -/
def repoG : List Recipe :=
  [recipeOf 1 none ["garlic"], recipeOf 2 none ["garlic"]]

/-- The recommender built over repoG. -/
def recG : Recommender := ⟨repoG, ⟨["garlic"]⟩⟩

/-- Preferences naming garlic as a preferred ingredient and nothing else. -/
def prefsPrefG : UserPreferences := ⟨none, none, none, some ["garlic"]⟩

/-- Preferences with only a 10-minute time budget. -/
def prefsMax10 : UserPreferences := ⟨none, some 10, none, none⟩

/-- Preferences excluding garlic and nothing else. -/
def prefsExclG : UserPreferences := ⟨none, none, some ["garlic"], none⟩

/-- Empty preferences. -/
def prefsNone : UserPreferences := ⟨none, none, none, none⟩

/-! ### Supporting lemmas -/

lemma mem_dedupGo {α : Type} [DecidableEq α] (l : List α) :
    ∀ (seen : List α) (x : α), x ∈ dedupGo seen l ↔ x ∈ l ∧ x ∉ seen := by
  induction l with
  | nil => intro seen x; simp [dedupGo]
  | cons a l ih =>
    intro seen x
    by_cases h : a ∈ seen
    · rw [dedupGo, if_pos h, ih]
      constructor
      · exact fun hx => ⟨List.mem_cons_of_mem a hx.1, hx.2⟩
      · rintro ⟨hx, hs⟩
        rcases List.mem_cons.mp hx with hxa | hxl
        · exact absurd (hxa ▸ h) hs
        · exact ⟨hxl, hs⟩
    · rw [dedupGo, if_neg h]
      constructor
      · intro hx
        rcases List.mem_cons.mp hx with hxa | hxr
        · exact ⟨hxa ▸ List.mem_cons_self a l, hxa ▸ h⟩
        · have := (ih (a :: seen) x).mp hxr
          exact ⟨List.mem_cons_of_mem a this.1,
            fun hs => this.2 (List.mem_cons_of_mem a hs)⟩
      · rintro ⟨hx, hs⟩
        rcases List.mem_cons.mp hx with hxa | hxl
        · exact hxa ▸ List.mem_cons_self _ _
        · by_cases hxa : x = a
          · exact hxa ▸ List.mem_cons_self _ _
          · exact List.mem_cons_of_mem _ ((ih (a :: seen) x).mpr
              ⟨hxl, fun hm => by
                rcases List.mem_cons.mp hm with h1 | h2
                · exact hxa h1
                · exact hs h2⟩)

lemma mem_dedup {α : Type} [DecidableEq α] (l : List α) (x : α) :
    x ∈ dedup l ↔ x ∈ l := by
  rw [dedup, mem_dedupGo]
  simp

lemma nodup_dedupGo {α : Type} [DecidableEq α] (l : List α) :
    ∀ seen : List α, (dedupGo seen l).Nodup := by
  induction l with
  | nil => intro seen; simp [dedupGo]
  | cons a l ih =>
    intro seen
    by_cases h : a ∈ seen
    · rw [dedupGo, if_pos h]; exact ih seen
    · rw [dedupGo, if_neg h]
      refine List.nodup_cons.mpr ⟨fun hmem => ?_, ih (a :: seen)⟩
      exact ((mem_dedupGo l (a :: seen) a).mp hmem).2 (List.mem_cons_self a seen)

lemma nodup_dedup {α : Type} [DecidableEq α] (l : List α) :
    (dedup l).Nodup := nodup_dedupGo l []

/-- Counting the common elements of two duplicate-free lists from either
side gives the same number. -/
lemma length_filter_mem_comm (A B : List String) (hA : A.Nodup)
    (hB : B.Nodup) :
    (A.filter (fun x => decide (x ∈ B))).length =
      (B.filter (fun x => decide (x ∈ A))).length := by
  have sub1 : (A.filter (fun x => decide (x ∈ B))) ⊆
      (B.filter (fun x => decide (x ∈ A))) := by
    intro x hx
    simp only [List.mem_filter, decide_eq_true_eq] at hx ⊢
    exact ⟨hx.2, hx.1⟩
  have sub2 : (B.filter (fun x => decide (x ∈ A))) ⊆
      (A.filter (fun x => decide (x ∈ B))) := by
    intro x hx
    simp only [List.mem_filter, decide_eq_true_eq] at hx ⊢
    exact ⟨hx.2, hx.1⟩
  exact ((hA.filter _).subperm sub1).antisymm
    ((hB.filter _).subperm sub2) |>.length_eq

/-! ### Claim theorems -/

/-- C1: the claim says calculate_ingredient_similarity returns
matched recipe ingredients over total recipe ingredients.  The code instead
counts, for each user-available ingredient, whether that user ingredient has
any corpus match above 0.5 (the computed recipe_similar list is discarded
and the tested condition is independent of the recipe ingredient), so on
the corpus {chicken, beans} with user list [chicken, chicken, chicken] it
returns 3/2, while the number of matched recipe ingredients over the total
is 1/2 on the spec reading. -/
theorem claim1_similarity_counts_user_side :
    fitTransformIngredients ["chicken", "beans"] = Except.ok procCB ∧
    getRecipeIngredients (recipeOf 1 none ["chicken", "beans"]) =
      ["chicken", "beans"] ∧
    calculateIngredientSimilarity procCB ["chicken", "chicken", "chicken"]
      ["chicken", "beans"] = 3 / 2 ∧
    specIngredientMatch procCB ["chicken", "chicken", "chicken"]
      ["chicken", "beans"] = 1 / 2 := by
  with_unfolding_all decide

/-- C2: the claim says the ingredient_match component always lies in [0,1].
On the corpus {chicken} with user list [chicken, chicken] and a one-
ingredient recipe the code returns 2, outside [0,1]; the second half of the
claim (0 when no available ingredients were supplied) does hold, shown here
on the recommender path with empty preferences. -/
theorem claim2_ingredient_match_exceeds_one :
    calculateIngredientSimilarity procC ["chicken", "chicken"] ["chicken"] =
      2 ∧
    ¬(calculateIngredientSimilarity procC ["chicken", "chicken"] ["chicken"]
        ≤ 1) ∧
    (scoreOne ⟨[recipeOf 1 none ["chicken"]], procC⟩
        ⟨some ["chicken", "chicken"], none, none, none⟩
        (recipeOf 1 none ["chicken"])).scores.ingredient_match = 2 ∧
    (scoreOne ⟨[recipeOf 1 none ["chicken"]], procC⟩ prefsNone
        (recipeOf 1 none ["chicken"])).scores.ingredient_match = 0 := by
  with_unfolding_all decide

/-- C3: the claim says the explanation maps each user ingredient to the
recipe ingredients whose similarity to that user ingredient exceeds 0.3.
The code instead tests each recipe ingredient against the corpus (a lookup
independent of the user ingredient), so the user ingredient tofu, which has
similarity 0 to every recipe ingredient, is mapped to every recipe
ingredient instead of being omitted. -/
theorem claim3_matching_ingredients_ignores_user :
    getMatchingIngredients procCB ["tofu"] ["chicken", "beans"] =
      [("tofu", ["chicken", "beans"])] ∧
    specMatchingIngredients procCB ["tofu"] ["chicken", "beans"] = [] := by
  with_unfolding_all decide

/-- C4: the claim says building the index over an empty corpus then querying
never raises.  The sklearn fit raises ValueError (empty vocabulary) on an
empty corpus, the source adds no handling, so building the recommender over
an empty repository propagates the error and find_similar_ingredients is
never reachable. -/
theorem claim4_empty_corpus_raises :
    fitTransformIngredients ([] : List String) = Except.error
      "empty vocabulary; perhaps the documents only contain stop words" ∧
    mkRecommender ([] : List Recipe) = Except.error
      "empty vocabulary; perhaps the documents only contain stop words" := by
  with_unfolding_all decide

/-- C5: the claim says a known total_time of 0 with a known max_time gives
time_score 1.0 (absence, not zero, means unknown).  The code tests Python
truthiness, so total_time = 0 falls into the unknown branch and scores 0.0;
with positive known values the code does behave as claimed (1 within the
budget, linear decay beyond it, 0 when the recipe time is absent). -/
theorem claim5_zero_total_time_scores_zero :
    (calculateRecipeScore (recipeOf 1 (some 0) ["garlic"]) prefsMax10
        0).time_score = 0 ∧
    (calculateRecipeScore (recipeOf 1 (some 5) ["garlic"]) prefsMax10
        0).time_score = 1 ∧
    (calculateRecipeScore (recipeOf 1 (some 15) ["garlic"]) prefsMax10
        0).time_score = 1 / 2 ∧
    (calculateRecipeScore (recipeOf 1 none ["garlic"]) prefsMax10
        0).time_score = 0 := by
  with_unfolding_all decide

/-- C6 counterexample: the claim says any limit at most 0 yields an empty
list.  Over a two-recipe repository where both recipes score positively,
limit -1 returns one recommendation, not an empty list (the Python slice
drops one element from the end). -/
theorem claim6_negative_limit_not_empty :
    mkRecommender repoG = Except.ok recG ∧
    (getRecommendations recG prefsPrefG (-1)).length = 1 := by
  with_unfolding_all decide

/-- C6 amended: a limit of exactly 0 yields an empty list, the default limit
is 5, and a negative limit -k returns all but the last k sorted
recommendations (Python slice semantics) rather than an empty list. -/
theorem claim6_amended_zero_limit_empty (rec : Recommender)
    (preferences : UserPreferences) :
    getRecommendations rec preferences 0 = [] ∧
    getRecommendationsDefault rec preferences =
      getRecommendations rec preferences 5 ∧
    ∀ k : Nat, getRecommendations rec preferences (-(k + 1 : Int)) =
      (scoredSorted rec preferences).take
        ((scoredSorted rec preferences).length - (k + 1)) := by
  refine ⟨?_, rfl, ?_⟩
  · simp [getRecommendations, pySlice]
  · intro k
    rw [getRecommendations, pySlice, if_neg (by omega)]
    have ht : ((-(-(k + 1 : Int))).toNat) = k + 1 := by omega
    rw [ht]

/-- C7: the total score is exactly the weighted sum
0.4 ingredient_match + 0.3 time_score + 0.3 preference_score
  - 1.0 exclusion_penalty,
and whenever the exclusion penalty is at least 1 while each other component
is at most 1, the total is at most 0, so the recipe is removed by the
strictly-positive filter. -/
theorem claim7_total_score_formula (recipe : Recipe)
    (preferences : UserPreferences) (iscore : ℚ) :
    (calculateRecipeScore recipe preferences iscore).total_score =
      0.4 * (calculateRecipeScore recipe preferences iscore).ingredient_match
      + 0.3 * (calculateRecipeScore recipe preferences iscore).time_score
      + 0.3 * (calculateRecipeScore recipe preferences iscore).preference_score
      - 1.0 * (calculateRecipeScore recipe preferences iscore).exclusion_penalty
    ∧ (1 ≤ (calculateRecipeScore recipe preferences iscore).exclusion_penalty →
       (calculateRecipeScore recipe preferences iscore).ingredient_match ≤ 1 →
       (calculateRecipeScore recipe preferences iscore).time_score ≤ 1 →
       (calculateRecipeScore recipe preferences iscore).preference_score ≤ 1 →
       (calculateRecipeScore recipe preferences iscore).total_score ≤ 0) := by
  have hf : (calculateRecipeScore recipe preferences iscore).total_score =
      0.4 * (calculateRecipeScore recipe preferences iscore).ingredient_match
      + 0.3 * (calculateRecipeScore recipe preferences iscore).time_score
      + 0.3 * (calculateRecipeScore recipe preferences iscore).preference_score
      - 1.0 * (calculateRecipeScore recipe preferences
          iscore).exclusion_penalty := by
    simp only [calculateRecipeScore]
    ring
  refine ⟨hf, fun h1 h2 h3 h4 => ?_⟩
  rw [hf]
  nlinarith

/-- C7 witness: a recipe containing garlic with garlic excluded has
exclusion penalty 1, every other component at most 1, and total score at
most 0. -/
theorem claim7_witness :
    1 ≤ (calculateRecipeScore (recipeOf 1 none ["garlic"]) prefsExclG
        0).exclusion_penalty ∧
    (calculateRecipeScore (recipeOf 1 none ["garlic"]) prefsExclG
        0).total_score ≤ 0 :=
  ⟨by with_unfolding_all decide,
   (claim7_total_score_formula (recipeOf 1 none ["garlic"]) prefsExclG 0).2
     (by with_unfolding_all decide) (by with_unfolding_all decide)
     (by with_unfolding_all decide) (by with_unfolding_all decide)⟩

/-- C9: the preference score is the fraction of the distinct lower-cased
preferred ingredient names found by exact case-insensitive membership among
the recipe ingredient names, and it is 0 when no preferences were supplied. -/
theorem claim9_preference_score_fraction (recipe : Recipe)
    (preferences : UserPreferences) (iscore : ℚ) :
    (∀ l, preferences.preferred_ingredients = some l → l ≠ [] →
      (calculateRecipeScore recipe preferences iscore).preference_score =
        specPreferenceScore recipe l) ∧
    ((preferences.preferred_ingredients = none ∨
        preferences.preferred_ingredients = some []) →
      (calculateRecipeScore recipe preferences iscore).preference_score = 0) := by
  constructor
  · intro l hl _
    simp only [calculateRecipeScore, specPreferenceScore, hl, optListTruthy,
      Option.getD_some]
    by_cases hemp : l.isEmpty
    · rw [if_neg (by simp [hemp])]
      rw [List.isEmpty_iff] at hemp
      subst hemp
      simp [dedup, dedupGo]
    · rw [if_pos (by simp [hemp])]
      by_cases hde : (dedup (l.map lowerString)).isEmpty
      · rw [if_pos hde, if_pos hde]
      · have hA : (getRecipeIngredients recipe).Nodup := by
          rw [getRecipeIngredients]; exact nodup_dedup _
        rw [if_neg hde, if_neg hde, listInter,
          length_filter_mem_comm _ _ hA (nodup_dedup _)]
  · intro h
    rcases h with h | h <;>
      simp only [calculateRecipeScore, h, optListTruthy] <;> simp

/-! ### Character and scanner lemmas for the idempotence claim -/

lemma mem_insertDescBy {α : Type} (ge : α → α → Bool) (x : α) (l : List α)
    (z : α) : z ∈ insertDescBy ge x l ↔ z = x ∨ z ∈ l := by
  induction l with
  | nil => simp [insertDescBy]
  | cons y ys ih =>
    rw [insertDescBy]
    by_cases h : ge x y
    · simp [h]
    · rw [if_neg h]
      simp only [List.mem_cons, ih]
      tauto

lemma perm_insertDescBy {α : Type} (ge : α → α → Bool) (x : α)
    (l : List α) : List.Perm (insertDescBy ge x l) (x :: l) := by
  induction l with
  | nil => simp [insertDescBy]
  | cons y ys ih =>
    rw [insertDescBy]
    by_cases h : ge x y
    · simp [h]
    · rw [if_neg h]
      exact (ih.cons y).trans (List.Perm.swap x y ys)

lemma perm_sortDescBy {α : Type} (ge : α → α → Bool) (l : List α) :
    List.Perm (sortDescBy ge l) l := by
  induction l with
  | nil => simp [sortDescBy]
  | cons x xs ih =>
    rw [sortDescBy]
    exact (perm_insertDescBy ge x (sortDescBy ge xs)).trans (ih.cons x)

/-- Inserting into a list that is ascending by id keeps it ascending. -/
lemma pairwise_insert_le (x : Recipe) (l : List Recipe)
    (h : l.Pairwise (fun a b => a.id ≤ b.id)) :
    (insertDescBy (fun a b => decide (a.id ≤ b.id)) x l).Pairwise
      (fun a b => a.id ≤ b.id) := by
  induction l with
  | nil => simp [insertDescBy]
  | cons y ys ih =>
    rw [insertDescBy]
    rcases List.pairwise_cons.mp h with ⟨hy, hys⟩
    by_cases hc : (decide (x.id ≤ y.id) : Bool)
    · rw [if_pos hc]
      have hxy : x.id ≤ y.id := of_decide_eq_true hc
      refine List.pairwise_cons.mpr ⟨?_, h⟩
      intro z hz
      rcases List.mem_cons.mp hz with hzy | hzys
      · exact hzy ▸ hxy
      · exact le_trans hxy (hy z hzys)
    · rw [if_neg hc]
      have hyx : y.id ≤ x.id := by
        have hngt : ¬x.id ≤ y.id := by simpa using hc
        omega
      refine List.pairwise_cons.mpr ⟨?_, ih hys⟩
      intro z hz
      rcases (mem_insertDescBy _ x ys z).mp hz with hzx | hzys
      · exact hzx ▸ hyx
      · exact hy z hzys

/-- The repository fetch sort is ascending by id. -/
lemma pairwise_sortById (l : List Recipe) :
    (sortDescBy (fun a b => decide (a.id ≤ b.id)) l).Pairwise
      (fun a b => a.id ≤ b.id) := by
  induction l with
  | nil => simp [sortDescBy]
  | cons x xs ih =>
    rw [sortDescBy]
    exact pairwise_insert_le x _ ih

/-- The descending total-score order with ties resolved by ascending recipe
id: the shape claimed for the output of recommend. -/
def recLex (a b : ScoredRecommendation) : Prop :=
  b.scores.total_score < a.scores.total_score ∨
    (a.scores.total_score = b.scores.total_score ∧ a.recipe.id < b.recipe.id)

/-- Stability argument: inserting an element whose id is below every id in
an already recLex-ordered list (as the stable sort does, processing the
id-ascending input from the right) keeps the list recLex-ordered. -/
lemma pairwise_insert_lex (x : ScoredRecommendation)
    (l : List ScoredRecommendation) (hl : l.Pairwise recLex)
    (hx : ∀ y ∈ l, x.recipe.id < y.recipe.id) :
    (insertDescBy
      (fun a b => decide (b.scores.total_score ≤ a.scores.total_score)) x
      l).Pairwise recLex := by
  induction l with
  | nil => simp [insertDescBy]
  | cons y ys ih =>
    rw [insertDescBy]
    rcases List.pairwise_cons.mp hl with ⟨hy, hys⟩
    by_cases hc : (decide (y.scores.total_score ≤ x.scores.total_score) : Bool)
    · rw [if_pos hc]
      have hxy : y.scores.total_score ≤ x.scores.total_score :=
        of_decide_eq_true hc
      refine List.pairwise_cons.mpr ⟨?_, hl⟩
      intro z hz
      rcases List.mem_cons.mp hz with hzy | hzys
      · subst hzy
        rcases lt_or_eq_of_le hxy with hlt | heq
        · exact Or.inl hlt
        · exact Or.inr ⟨heq.symm, hx z (List.mem_cons_self _ _)⟩
      · have hyz : z.scores.total_score ≤ y.scores.total_score := by
          rcases hy z hzys with hlt | ⟨heq, _⟩
          · exact le_of_lt hlt
          · exact le_of_eq heq.symm
        rcases lt_or_eq_of_le (le_trans hyz hxy) with hlt | heq
        · exact Or.inl hlt
        · exact Or.inr ⟨heq.symm, hx z (List.mem_cons_of_mem _ hzys)⟩
    · rw [if_neg hc]
      have hyx : x.scores.total_score < y.scores.total_score := by
        have hngt : ¬y.scores.total_score ≤ x.scores.total_score := by
          simpa using hc
        exact lt_of_not_le hngt
      refine List.pairwise_cons.mpr
        ⟨?_, ih hys (fun z hz => hx z (List.mem_cons_of_mem _ hz))⟩
      intro z hz
      rcases (mem_insertDescBy _ x ys z).mp hz with hzx | hzys
      · exact hzx ▸ Or.inl hyx
      · exact hy z hzys

/-- Stable-sorting an id-ascending duplicate-free list descending by total
score yields the recLex order. -/
lemma pairwise_sort_lex (l : List ScoredRecommendation)
    (h : l.Pairwise (fun a b => a.recipe.id < b.recipe.id)) :
    (sortDescBy
      (fun a b => decide (b.scores.total_score ≤ a.scores.total_score))
      l).Pairwise recLex := by
  induction l with
  | nil => simp [sortDescBy]
  | cons x xs ih =>
    rw [sortDescBy]
    rcases List.pairwise_cons.mp h with ⟨hx, hxs⟩
    refine pairwise_insert_lex x _ (ih hxs) ?_
    intro y hy
    exact hx y ((perm_sortDescBy _ xs).mem_iff.mp hy)

/-- Both branches of the Python slice are prefixes. -/
lemma pySlice_sublist {α : Type} (l : List α) (n : Int) :
    List.Sublist (pySlice l n) l := by
  rw [pySlice]
  split
  · exact List.take_sublist _ _
  · exact List.take_sublist _ _

/-- C8: over a repository whose recipe ids are distinct (they are database
primary keys), the recommendation list is ordered by total score descending
with ties resolved by recipe id ascending, and the function is
deterministic: equal preference inputs give equal ordered output. -/
theorem claim8_sorted_and_deterministic (rec : Recommender)
    (preferences : UserPreferences) (n : Int)
    (h : (rec.recipe_repository.map Recipe.id).Nodup) :
    (getRecommendations rec preferences n).Pairwise
      (fun a b => b.scores.total_score < a.scores.total_score ∨
        (a.scores.total_score = b.scores.total_score ∧
          a.recipe.id < b.recipe.id)) ∧
    ∀ p2 : UserPreferences, p2 = preferences →
      getRecommendations rec p2 n = getRecommendations rec preferences n := by
  refine ⟨?_, fun p2 hp => hp ▸ rfl⟩
  have hsorted := pairwise_sortById rec.recipe_repository
  have hperm : List.Perm
      (sortDescBy (fun a b => decide (a.id ≤ b.id)) rec.recipe_repository)
      rec.recipe_repository := perm_sortDescBy _ _
  have hnodup : ((sortDescBy (fun a b => decide (a.id ≤ b.id))
      rec.recipe_repository).map Recipe.id).Nodup :=
    ((hperm.map Recipe.id).nodup_iff).mpr h
  have hne : (sortDescBy (fun a b => decide (a.id ≤ b.id))
      rec.recipe_repository).Pairwise (fun a b => a.id ≠ b.id) :=
    List.pairwise_map.mp hnodup
  have hlt : (sortDescBy (fun a b => decide (a.id ≤ b.id))
      rec.recipe_repository).Pairwise (fun a b => a.id < b.id) :=
    (hsorted.and hne).imp (fun hab => lt_of_le_of_ne hab.1 hab.2)
  have hcands : (getRecipes rec.recipe_repository 1000 0).Pairwise
      (fun a b => a.id < b.id) := by
    rw [getRecipes, List.drop_zero]
    exact List.Pairwise.sublist (List.take_sublist _ _) hlt
  have hmapped : ((getRecipes rec.recipe_repository 1000 0).map
      (scoreOne rec preferences)).Pairwise
      (fun a b => a.recipe.id < b.recipe.id) :=
    List.pairwise_map.mpr (hcands.imp (fun hab => hab))
  have hfiltered : (((getRecipes rec.recipe_repository 1000 0).map
      (scoreOne rec preferences)).filter
        (fun s => decide (0 < s.scores.total_score))).Pairwise
      (fun a b => a.recipe.id < b.recipe.id) :=
    List.Pairwise.sublist (List.filter_sublist _) hmapped
  have hfinal := pairwise_sort_lex _ hfiltered
  exact List.Pairwise.sublist (pySlice_sublist _ n) hfinal

/-- C8 witness: the two-recipe repository has distinct ids 1 and 2, so its
five-element recommendation request is recLex-ordered and deterministic. -/
theorem claim8_witness :
    (recG.recipe_repository.map Recipe.id).Nodup ∧
    ((getRecommendations recG prefsPrefG 5).Pairwise
      (fun a b => b.scores.total_score < a.scores.total_score ∨
        (a.scores.total_score = b.scores.total_score ∧
          a.recipe.id < b.recipe.id)) ∧
    ∀ p2 : UserPreferences, p2 = prefsPrefG →
      getRecommendations recG p2 5 = getRecommendations recG prefsPrefG 5) :=
  ⟨by with_unfolding_all decide,
   claim8_sorted_and_deterministic recG prefsPrefG 5
     (by with_unfolding_all decide)⟩

/-- C9 witness: with preferred ingredients [Garlic, onion] and a recipe
containing garlic but not onion, the preference score equals the spec
fraction, here 1/2. -/
theorem claim9_witness :
    (⟨none, none, none, some ["Garlic", "onion"]⟩ :
        UserPreferences).preferred_ingredients = some ["Garlic", "onion"] ∧
    (calculateRecipeScore (recipeOf 1 none ["garlic"])
        ⟨none, none, none, some ["Garlic", "onion"]⟩ 0).preference_score =
      specPreferenceScore (recipeOf 1 none ["garlic"]) ["Garlic", "onion"] ∧
    specPreferenceScore (recipeOf 1 none ["garlic"]) ["Garlic", "onion"] =
      1 / 2 :=
  ⟨rfl,
   (claim9_preference_score_fraction (recipeOf 1 none ["garlic"])
       ⟨none, none, none, some ["Garlic", "onion"]⟩ 0).1
     ["Garlic", "onion"] rfl (by decide),
   by with_unfolding_all decide⟩

end Recipes
